import Mathlib

/-!
Verification of the identifier-resolution and project-directory-discovery
logic of a Docker MCP toolbox.

The `_find_container` / `_find_image` / `_find_network` / `_find_volume`
helpers (src/tools/*.py) all follow the same shape: an exact runtime lookup
(`client.<kind>.get`) that may succeed, raise NotFound, or raise another
runtime error; on NotFound, a full listing is filtered by a case-insensitive
substring test, and the outcome is classified as a single resolved resource,
an ambiguity error listing the matches, or a not-found error carrying a
suggestion list.  `ComposeTools._find_project_dir` (src/tools/compose_tools.py)
resolves a compose project directory from an explicit path, environment
hints, or an upward filesystem walk.

Python strings are Lean `String`s; Python `needle in hay` on strings is
`pyIn`; absolute filesystem paths are lists of components (the root is `[]`,
`os.path.dirname` is `List.dropLast`).
-/

/-- Python's `needle in hay` where `needle` starts at the head of `hay`. -/
def headMatch : List Char → List Char → Bool
  | [], _ => true
  | _ :: _, [] => false
  | a :: as, b :: bs => a == b && headMatch as bs

/-- Python's substring operator `needle in hay` on lists of characters:
true iff `needle` occurs contiguously inside `hay` (the empty needle always
occurs). -/
def subList : List Char → List Char → Bool
  | needle, [] => needle.isEmpty
  | needle, hay@(_ :: t) => headMatch needle hay || subList needle t

/-- Python's `needle in hay` on strings. -/
def pyIn (needle hay : String) : Bool := subList needle.data hay.data

/-- Python's `s.lower()`: characterwise lowercasing (identifiers here are
ASCII, where Python's `str.lower` and characterwise `Char.toLower`
agree). -/
def pyLower (s : String) : String := ⟨s.data.map Char.toLower⟩

/-- Outcome of the runtime's exact lookup `client.<kind>.get(query)`:
the resource, a `docker.errors.NotFound`, or any other runtime exception
(which the resolvers do not catch). -/
inductive GetResult (α : Type) where
  | found (c : α)
  | notFound
  | commError (msg : String)
deriving DecidableEq

/-- Snapshot of the runtime as a resolver call sees it: the exact-lookup
function and the outcome of `client.<kind>.list(...)` (either the listing or
a runtime communication error, which the resolvers do not catch). -/
structure Directory (α : Type) where
  get : String → GetResult α
  listAll : Except String (List α)

/-- Result of a `_find_*` helper: the resolved resource (returned), the
"Multiple ... match" ValueError (payload: the names/tags it enumerates), the
"... not found" ValueError (payload: the suggestion list), or an uncaught
runtime exception. -/
inductive FindResult (α : Type) where
  | resolved (c : α)
  | ambiguous (names : List String)
  | notFound (suggestions : List String)
  | commFailure (msg : String)
deriving DecidableEq

/-- A container (or network) as seen by a listing: runtime id and name. -/
structure Candidate where
  id : String
  name : String
deriving DecidableEq, Repr

/-- An image as seen by a listing: runtime id and its (possibly empty) tag
list. -/
structure Image where
  id : String
  tags : List String
deriving DecidableEq, Repr

/-- A volume as seen by a listing: its name. -/
structure Volume where
  name : String
deriving DecidableEq, Repr

/-- The match test of `ContainerTools._find_container`:
`container_identifier.lower() in c.name.lower() or
 container_identifier.lower() in c.id.lower()`. -/
def containerMatches (q : String) (c : Candidate) : Bool :=
  pyIn (pyLower q) (pyLower c.name) || pyIn (pyLower q) (pyLower c.id)

/-- `ContainerTools._find_container` (src/tools/container_tools.py, lines
35-66). -/
def findContainer (d : Directory Candidate) (q : String) : FindResult Candidate :=
  match d.get q with
  | .found c => .resolved c
  | .commError m => .commFailure m
  | .notFound =>
    match d.listAll with
    | .error m => .commFailure m
    | .ok all =>
      match all.filter (containerMatches q) with
      | [c] => .resolved c
      | [] =>
        .notFound (((all.map Candidate.name).filter
          (fun n => pyIn (pyLower q) (pyLower n))).take 3)
      | ms => .ambiguous (ms.map Candidate.name)

/-- `NetworkTools._find_network` (src/tools/network_tools.py, lines 36-62);
identical in structure to `_find_container`. -/
def findNetwork (d : Directory Candidate) (q : String) : FindResult Candidate :=
  match d.get q with
  | .found c => .resolved c
  | .commError m => .commFailure m
  | .notFound =>
    match d.listAll with
    | .error m => .commFailure m
    | .ok all =>
      match all.filter (containerMatches q) with
      | [c] => .resolved c
      | [] =>
        .notFound (((all.map Candidate.name).filter
          (fun n => pyIn (pyLower q) (pyLower n))).take 3)
      | ms => .ambiguous (ms.map Candidate.name)

/-- The match test of `VolumeTools._find_volume`:
`volume_identifier.lower() in v.name.lower()`. -/
def volumeMatches (q : String) (v : Volume) : Bool :=
  pyIn (pyLower q) (pyLower v.name)

/-- `VolumeTools._find_volume` (src/tools/volume_tools.py, lines 36-61). -/
def findVolume (d : Directory Volume) (q : String) : FindResult Volume :=
  match d.get q with
  | .found v => .resolved v
  | .commError m => .commFailure m
  | .notFound =>
    match d.listAll with
    | .error m => .commFailure m
    | .ok all =>
      match all.filter (volumeMatches q) with
      | [v] => .resolved v
      | [] =>
        .notFound (((all.map Volume.name).filter
          (fun n => pyIn (pyLower q) (pyLower n))).take 3)
      | ms => .ambiguous (ms.map Volume.name)

/-- The match test of `ImageTools._find_image`'s loop over `all_images`:
id substring, or any tag substring (`for tag in (img.tags or [])`). -/
def imageMatches (q : String) (img : Image) : Bool :=
  pyIn (pyLower q) (pyLower img.id) || img.tags.any (fun t => pyIn (pyLower q) (pyLower t))

/-- `tags = img.tags if img.tags else ["<none>"]` in the ambiguous branch of
`_find_image`. -/
def imageDisplayTags (img : Image) : List String :=
  if img.tags.isEmpty then ["<none>"] else img.tags

/-- Models Python's `list(set(xs))` on a list of strings.  Python's set
iteration order is unspecified; we fix first-occurrence order, and the
theorems below rely only on facts independent of the order chosen (the
element set and hence the length of the deduplicated list). -/
def pyDedup (xs : List String) : List String :=
  xs.foldl (fun acc t => if t ∈ acc then acc else acc ++ [t]) []

/-- `ImageTools._find_image` (src/tools/image_tools.py, lines 43-88).  The
matching loop appends each image at most once (id test with `continue`, then
tag loop with `break`), i.e. it filters the listing by `imageMatches`; the
ambiguous payload is `list(set(tags_list))[:5]`, the not-found suggestions
are tag substring matches capped at 3. -/
def findImage (d : Directory Image) (q : String) : FindResult Image :=
  match d.get q with
  | .found i => .resolved i
  | .commError m => .commFailure m
  | .notFound =>
    match d.listAll with
    | .error m => .commFailure m
    | .ok all =>
      match all.filter (imageMatches q) with
      | [i] => .resolved i
      | [] =>
        .notFound (((all.flatMap Image.tags).filter
          (fun t => pyIn (pyLower q) (pyLower t))).take 3)
      | ms => .ambiguous ((pyDedup (ms.flatMap imageDisplayTags)).take 5)

/-! ## Project Directory Locator (`ComposeTools`, src/tools/compose_tools.py) -/

/-- An absolute, normalized filesystem path as its list of components;
`[]` is the filesystem root, `os.path.dirname` is `List.dropLast`. -/
abbrev DirPath := List String

/-- `COMPOSE_FILES` (src/tools/compose_tools.py, lines 7-12). -/
def COMPOSE_FILES : List String :=
  ["docker-compose.yml", "docker-compose.yaml", "compose.yml", "compose.yaml"]

/-- The filesystem as the locator observes it:
`os.path.isdir` and `os.path.isfile` on absolute paths. -/
structure FS where
  isDir : DirPath → Bool
  isFile : DirPath → Bool

/-- The process state a `_find_project_dir` call observes: the filesystem,
the environment (`os.environ`, as an association list), `os.getcwd()`
(already absolute and normalized), and `os.path.abspath`, which resolves a
raw path string against the current working directory.  `os.path.isdir` /
`os.path.isfile` applied to a raw string agree with applying them to its
absolutization, and `os.path.abspath` is the identity on paths that are
already absolute and normalized (such as `getcwd()` and its `dirname`
ancestors), so the model applies `abspath` once and probes the filesystem on
`DirPath`s. -/
structure Sys where
  fs : FS
  env : List (String × String)
  cwd : DirPath
  abspath : String → DirPath

/-- `os.environ.get(key)`. -/
def getEnv (s : Sys) (k : String) : Option String :=
  (s.env.find? (fun kv => kv.1 == k)).map (·.2)

/-- `ComposeTools._has_compose_file` (lines 24-29): some recognized compose
file name exists directly inside the directory. -/
def has_compose_file (fs : FS) (d : DirPath) : Bool :=
  COMPOSE_FILES.any (fun n => fs.isFile (d ++ [n]))

/-- The env-hint loop body (lines 47-50): the value returned for key `k` if
the hint is accepted (`path = os.environ.get(env_key)`; accepted when
`path and os.path.isdir(path) and self._has_compose_file(path)`, in which
case `os.path.abspath(path)` is returned), and `none` if the hint is
skipped. -/
def acceptedHint (s : Sys) (k : String) : Option DirPath :=
  match getEnv s k with
  | some p =>
    if p != "" && s.fs.isDir (s.abspath p) && has_compose_file s.fs (s.abspath p) then
      some (s.abspath p)
    else none
  | none => none

/-- The fixed hint order of line 47. -/
def env_keys : List String := ["MCP_PROJECT_DIR", "WORKSPACE_ROOT", "CURSOR_WORKSPACE_ROOT"]

/-- The `for env_key in (...)` loop of lines 47-50: first accepted hint
wins. -/
def tryEnvHints (s : Sys) : List String → Option DirPath
  | [] => none
  | k :: ks =>
    match acceptedHint s k with
    | some p => some p
    | none => tryEnvHints s ks

/-- The upward-walk loop of lines 51-62, fueled for structural recursion:
check the current directory for a compose file; at the root
(`os.path.dirname(path) == path`) with no compose file, fail.  With
`fuel ≥ p.length` the fuel never runs out (each step drops the last
component). -/
def walkAux (s : Sys) : Nat → DirPath → Option DirPath
  | _, [] => if has_compose_file s.fs [] then some [] else none
  | 0, _ :: _ => none
  | n + 1, p =>
    if has_compose_file s.fs p then some p else walkAux s n p.dropLast

/-- The upward walk of lines 51-62 starting at directory `p`, returning the
first ancestor-or-self directory containing a compose file (`none` models
the "No compose project found" ValueError). -/
def walk_up (s : Sys) (p : DirPath) : Option DirPath := walkAux s p.length p

/-- The classified failures of `_find_project_dir` (each a ValueError with a
distinct message: "Project directory not found", "No compose file ... in",
"No compose project found"). -/
inductive LocateError where
  | invalidPath
  | noMarkerFile
  | noProjectFound
deriving DecidableEq, Repr

/-- The auto-detect path of `_find_project_dir` (lines 46-62): environment
hints in order, then the upward walk from `os.getcwd()`. -/
def autoDetect (s : Sys) : Except LocateError DirPath :=
  match tryEnvHints s env_keys with
  | some p => .ok p
  | none =>
    match walk_up s s.cwd with
    | some p => .ok p
    | none => .error .noProjectFound

/-- `ComposeTools._find_project_dir` (lines 31-62).  The argument is
`None` or the raw `project_dir` string; `if project_dir is not None and
project_dir:` routes the empty string to auto-detection. -/
def find_project_dir (s : Sys) (project_dir : Option String) : Except LocateError DirPath :=
  match project_dir with
  | some p =>
    if p != "" then
      let path := s.abspath p
      if !s.fs.isDir path then .error .invalidPath
      else if !has_compose_file s.fs path then .error .noMarkerFile
      else .ok path
    else autoDetect s
  | none => autoDetect s

/-- The external Resource Directory's exact lookup, modelled from its spec
contract ("the resource whose primary_key or canonical name equals `query`
verbatim"): the runtime resolves an exact id or exact name, external to this
repository. -/
def specGet (cs : List Candidate) (q : String) : GetResult Candidate :=
  match cs.find? (fun c => c.id == q || c.name == q) with
  | some c => .found c
  | none => .notFound

/-! ## Helper lemmas -/

theorem subList_nil_left (l : List Char) : subList [] l = true := by
  cases l <;> simp [subList, headMatch, List.isEmpty]

theorem pyIn_empty_needle (h : String) : pyIn "" h = true :=
  subList_nil_left h.data

theorem find?_eq_some_of_unique {α : Type} (p : α → Bool) :
    ∀ (l : List α) (c : α), c ∈ l → p c = true → (∀ b ∈ l, p b = true → b = c) →
      l.find? p = some c := by
  intro l
  induction l with
  | nil => intro c hc _ _; simp at hc
  | cons a t ih =>
    intro c hc hpc huniq
    by_cases hpa : p a = true
    · have hac : a = c := huniq a (by simp) hpa
      rw [List.find?_cons_of_pos t hpa, hac]
    · have hct : c ∈ t := by
        rcases List.mem_cons.mp hc with h | h
        · exact absurd (h ▸ hpc) hpa
        · exact h
      rw [List.find?_cons_of_neg t (by simpa using hpa)]
      exact ih c hct hpc (fun b hb => huniq b (List.mem_cons_of_mem a hb))

theorem pyDedup_mem_of : ∀ (xs : List String) (t : String), t ∈ pyDedup xs → t ∈ xs := by
  have key : ∀ (xs acc : List String) (t : String),
      t ∈ xs.foldl (fun acc t => if t ∈ acc then acc else acc ++ [t]) acc →
      t ∈ acc ∨ t ∈ xs := by
    intro xs
    induction xs with
    | nil => intro acc t ht; exact Or.inl ht
    | cons x rest ih =>
      intro acc t ht
      rcases ih _ t ht with h | h
      · by_cases hx : x ∈ acc
        · simp only [hx, if_pos] at h; exact Or.inl h
        · simp only [hx, if_neg, not_false_iff, List.mem_append, List.mem_singleton] at h
          rcases h with h | h
          · exact Or.inl h
          · exact Or.inr (by simp [h])
      · exact Or.inr (List.mem_cons_of_mem x h)
  intro xs t ht
  rcases key xs [] t ht with h | h
  · simp at h
  · exact h

/-! ## Claim theorems -/

/-- C2: if the runtime's exact lookup finds a resource for the query, the
resolver returns exactly that resource, whatever the candidate listing holds
(the partial-match fallback is never entered); instantiated with the
spec-modelled exact lookup, a query equal to the primary key of `c`, unique
in the sense that no other listed candidate's id or name equals the query,
always resolves to `c` no matter how many others contain it as a
substring. -/
theorem exact_match_always_wins :
    (∀ (d : Directory Candidate) (q : String) (c : Candidate),
       d.get q = .found c → findContainer d q = .resolved c)
  ∧ (∀ (cs : List Candidate) (q : String) (c : Candidate)
       (l : Except String (List Candidate)),
       c ∈ cs → c.id = q →
       (∀ c' ∈ cs, (c'.id = q ∨ c'.name = q) → c' = c) →
       findContainer { get := specGet cs, listAll := l } q = .resolved c) := by
  constructor
  · intro d q c h
    simp [findContainer, h]
  · intro cs q c l hc hid huniq
    have hfind : cs.find? (fun c' => c'.id == q || c'.name == q) = some c := by
      apply find?_eq_some_of_unique
      · exact hc
      · simp [hid]
      · intro b hb hpb
        apply huniq b hb
        rcases Bool.or_eq_true_iff.mp hpb with h | h
        · exact Or.inl (by simpa using h)
        · exact Or.inr (by simpa using h)
    have hget : specGet cs q = .found c := by simp [specGet, hfind]
    simp [findContainer, hget]

/-- C2 witness: query `"abc123"` is the primary key of the first candidate
while also a substring of the second candidate's name; the resolver returns
the first candidate. -/
theorem exact_match_always_wins_witness :
    findContainer
      { get := specGet [⟨"abc123", "web"⟩, ⟨"def456", "abc123-copy"⟩],
        listAll := .ok [⟨"abc123", "web"⟩, ⟨"def456", "abc123-copy"⟩] }
      "abc123" = .resolved ⟨"abc123", "web"⟩ :=
  exact_match_always_wins.2 [⟨"abc123", "web"⟩, ⟨"def456", "abc123-copy"⟩]
    "abc123" ⟨"abc123", "web"⟩ (.ok [⟨"abc123", "web"⟩, ⟨"def456", "abc123-copy"⟩])
    (by decide) rfl (by decide)

/-- C3: a non-NotFound failure of the exact lookup propagates as a
communication failure without any listing being consulted (the result is
the same for every listing state); a failure of the listing itself
propagates likewise; and a communication failure is a result distinct from
NotFound and from Ambiguous.  Both for containers and networks. -/
theorem hard_failures_propagate :
    (∀ (d : Directory Candidate) (q m : String),
       d.get q = .commError m → findContainer d q = .commFailure m)
  ∧ (∀ (g : String → GetResult Candidate) (q m : String),
       g q = .notFound → findContainer { get := g, listAll := .error m } q = .commFailure m)
  ∧ (∀ (d : Directory Candidate) (q m : String),
       d.get q = .commError m → findNetwork d q = .commFailure m)
  ∧ (∀ (g : String → GetResult Candidate) (q m : String),
       g q = .notFound → findNetwork { get := g, listAll := .error m } q = .commFailure m)
  ∧ (∀ (m : String) (sugg names : List String),
       FindResult.commFailure (α := Candidate) m ≠ .notFound sugg ∧
       FindResult.commFailure (α := Candidate) m ≠ .ambiguous names) := by
  refine ⟨?_, ?_, ?_, ?_, ?_⟩
  · intro d q m h; simp [findContainer, h]
  · intro g q m h; simp [findContainer, h]
  · intro d q m h; simp [findNetwork, h]
  · intro g q m h; simp [findNetwork, h]
  · intro m sugg names; exact ⟨fun h => FindResult.noConfusion h, fun h => FindResult.noConfusion h⟩

/-- C3 witness: a lookup error surfaces unchanged even over an empty listing,
and a listing error surfaces unchanged after a NotFound lookup. -/
theorem hard_failures_propagate_witness :
    findContainer { get := fun _ => .commError "boom", listAll := .ok [] } "q"
      = .commFailure "boom" ∧
    findContainer { get := fun _ => .notFound, listAll := .error "daemon unreachable" } "q"
      = .commFailure "daemon unreachable" :=
  ⟨hard_failures_propagate.1 _ "q" "boom" rfl,
   hard_failures_propagate.2.1 _ "q" "daemon unreachable" rfl⟩

/-- C7: when the exact lookup reports NotFound and exactly one candidate
passes the case-insensitive substring test (id or name; for images, id or
any tag), the resolver returns that single candidate. -/
theorem single_substring_match_resolves :
    (∀ (g : String → GetResult Candidate) (cs : List Candidate) (q : String) (c : Candidate),
       g q = .notFound → cs.filter (containerMatches q) = [c] →
       findContainer { get := g, listAll := .ok cs } q = .resolved c)
  ∧ (∀ (g : String → GetResult Image) (imgs : List Image) (q : String) (i : Image),
       g q = .notFound → imgs.filter (imageMatches q) = [i] →
       findImage { get := g, listAll := .ok imgs } q = .resolved i) := by
  constructor
  · intro g cs q c hg hf
    simp [findContainer, hg, hf]
  · intro g imgs q i hg hf
    simp [findImage, hg, hf]

/-- C7 witness: query `"WE"` matches only `"web"` (case-insensitively) among
`["web", "db"]`, and resolves to it. -/
theorem single_substring_match_resolves_witness :
    findContainer { get := fun _ => .notFound,
                    listAll := .ok [⟨"id1", "web"⟩, ⟨"id2", "db"⟩] } "WE"
      = .resolved ⟨"id1", "web"⟩ :=
  single_substring_match_resolves.1 (fun _ => .notFound)
    [⟨"id1", "web"⟩, ⟨"id2", "db"⟩] "WE" ⟨"id1", "web"⟩ rfl (by decide)

/-- C5: in the zero-match branch the resolver returns NotFound with a
suggestion list computed by a substring match on display names only (tags,
for images), in listing order, capped at 3; the suggestion test keeps only
names containing the query, and with the empty query it keeps every name. -/
theorem notfound_suggestion_shape :
    (∀ (g : String → GetResult Candidate) (cs : List Candidate) (q : String),
       g q = .notFound → cs.filter (containerMatches q) = [] →
       findContainer { get := g, listAll := .ok cs } q =
         .notFound (((cs.map Candidate.name).filter
           (fun n => pyIn (pyLower q) (pyLower n))).take 3) ∧
       (((cs.map Candidate.name).filter
           (fun n => pyIn (pyLower q) (pyLower n))).take 3).length ≤ 3 ∧
       ∀ n ∈ ((cs.map Candidate.name).filter
           (fun n => pyIn (pyLower q) (pyLower n))).take 3,
         pyIn (pyLower q) (pyLower n) = true)
  ∧ (∀ (g : String → GetResult Image) (imgs : List Image) (q : String),
       g q = .notFound → imgs.filter (imageMatches q) = [] →
       findImage { get := g, listAll := .ok imgs } q =
         .notFound (((imgs.flatMap Image.tags).filter
           (fun t => pyIn (pyLower q) (pyLower t))).take 3) ∧
       (((imgs.flatMap Image.tags).filter
           (fun t => pyIn (pyLower q) (pyLower t))).take 3).length ≤ 3)
  ∧ (∀ (names : List String),
       names.filter (fun n => pyIn (pyLower "") (pyLower n)) = names) := by
  refine ⟨?_, ?_, ?_⟩
  · intro g cs q hg hf
    refine ⟨by simp [findContainer, hg, hf], List.length_take_le 3 _, ?_⟩
    intro n hn
    have hm := List.mem_of_mem_take hn
    simpa using List.of_mem_filter hm
  · intro g imgs q hg hf
    exact ⟨by simp [findImage, hg, hf], List.length_take_le 3 _⟩
  · intro names
    apply List.filter_eq_self.mpr
    intro n _
    exact subList_nil_left (pyLower n).data

/-- C5 witness: a query matching nothing among `["alpha"]` yields NotFound
with the (name-only, capped) suggestion formula, and the empty-query
suggestion filter keeps every name. -/
theorem notfound_suggestion_shape_witness :
    findContainer { get := fun _ => .notFound, listAll := .ok [⟨"id1", "alpha"⟩] } "zz"
      = .notFound (((([⟨"id1", "alpha"⟩] : List Candidate).map Candidate.name).filter
          (fun n => pyIn (pyLower "zz") (pyLower n))).take 3) ∧
    ["alpha", "beta"].filter (fun n => pyIn (pyLower "") (pyLower n)) = ["alpha", "beta"] :=
  ⟨(notfound_suggestion_shape.1 (fun _ => .notFound) [⟨"id1", "alpha"⟩] "zz" rfl (by decide)).1,
   notfound_suggestion_shape.2.2 ["alpha", "beta"]⟩

/-- C6 (implicit): whenever a resolver reaches the NotFound outcome, its
suggestion list is empty: a name/tag suggestion match would already have
been a match of the main filter, contradicting the zero-match precondition
of that branch. -/
theorem notfound_suggestions_always_empty :
    (∀ (d : Directory Candidate) (q : String) (sugg : List String),
       findContainer d q = .notFound sugg → sugg = [])
  ∧ (∀ (d : Directory Image) (q : String) (sugg : List String),
       findImage d q = .notFound sugg → sugg = [])
  ∧ (∀ (d : Directory Volume) (q : String) (sugg : List String),
       findVolume d q = .notFound sugg → sugg = []) := by
  refine ⟨?_, ?_, ?_⟩
  · intro d q sugg h
    unfold findContainer at h
    cases hg : d.get q <;> simp only [hg] at h
    case found c => simp at h
    case commError m => simp at h
    cases hl : d.listAll <;> simp only [hl] at h
    case error m => simp at h
    case ok all =>
      cases hf : all.filter (containerMatches q) with
      | cons c rest =>
        cases rest <;> simp only [hf] at h <;> simp at h
      | nil =>
        simp only [hf, FindResult.notFound.injEq] at h
        have hnone : ∀ c ∈ all, containerMatches q c = false := by
          intro c hc
          simpa using List.filter_eq_nil_iff.mp hf c hc
        have hempty : (all.map Candidate.name).filter
            (fun n => pyIn (pyLower q) (pyLower n)) = [] := by
          apply List.filter_eq_nil_iff.mpr
          intro n hn
          obtain ⟨c, hc, rfl⟩ := List.mem_map.mp hn
          have h2 : pyIn (pyLower q) (pyLower c.name) = false := by
            have := hnone c hc
            unfold containerMatches at this
            exact (Bool.or_eq_false_iff.mp this).1
          simp [h2]
        rw [hempty] at h
        exact h.symm
  · intro d q sugg h
    unfold findImage at h
    cases hg : d.get q <;> simp only [hg] at h
    case found c => simp at h
    case commError m => simp at h
    cases hl : d.listAll <;> simp only [hl] at h
    case error m => simp at h
    case ok all =>
      cases hf : all.filter (imageMatches q) with
      | cons c rest =>
        cases rest <;> simp only [hf] at h <;> simp at h
      | nil =>
        simp only [hf, FindResult.notFound.injEq] at h
        have hnone : ∀ i ∈ all, imageMatches q i = false := by
          intro i hi
          simpa using List.filter_eq_nil_iff.mp hf i hi
        have hempty : (all.flatMap Image.tags).filter
            (fun t => pyIn (pyLower q) (pyLower t)) = [] := by
          apply List.filter_eq_nil_iff.mpr
          intro t ht
          obtain ⟨i, hi, hti⟩ := List.mem_flatMap.mp ht
          have h2 := hnone i hi
          unfold imageMatches at h2
          have h3 := (Bool.or_eq_false_iff.mp h2).2
          have h4 : ∀ u ∈ i.tags, pyIn (pyLower q) (pyLower u) = false := by
            intro u hu
            by_contra hb
            have : i.tags.any (fun u => pyIn (pyLower q) (pyLower u)) = true :=
              List.any_eq_true.mpr ⟨u, hu, by simpa using hb⟩
            rw [this] at h3
            exact Bool.true_eq_false.mp h3
          simp [h4 t hti]
        rw [hempty] at h
        exact h.symm
  · intro d q sugg h
    unfold findVolume at h
    cases hg : d.get q <;> simp only [hg] at h
    case found c => simp at h
    case commError m => simp at h
    cases hl : d.listAll <;> simp only [hl] at h
    case error m => simp at h
    case ok all =>
      cases hf : all.filter (volumeMatches q) with
      | cons c rest =>
        cases rest <;> simp only [hf] at h <;> simp at h
      | nil =>
        simp only [hf, FindResult.notFound.injEq] at h
        have hnone : ∀ v ∈ all, volumeMatches q v = false := by
          intro v hv
          simpa using List.filter_eq_nil_iff.mp hf v hv
        have hempty : (all.map Volume.name).filter
            (fun n => pyIn (pyLower q) (pyLower n)) = [] := by
          apply List.filter_eq_nil_iff.mpr
          intro n hn
          obtain ⟨v, hv, rfl⟩ := List.mem_map.mp hn
          have h2 := hnone v hv
          unfold volumeMatches at h2
          simp [h2]
        rw [hempty] at h
        exact h.symm

/-- C6 witness: a NotFound outcome on a concrete non-empty listing indeed
carries the empty suggestion list. -/
theorem notfound_suggestions_always_empty_witness :
    findContainer { get := fun _ => .notFound, listAll := .ok [⟨"id1", "web"⟩] } "zzz"
      = .notFound [] ∧ ([] : List String) = [] :=
  ⟨by decide,
   notfound_suggestions_always_empty.1
     { get := fun _ => .notFound, listAll := .ok [⟨"id1", "web"⟩] } "zzz" [] (by decide)⟩

/-- Listing used by the C1 counterexample: six images, each carrying one
distinct tag containing the query "app". -/
def sixImages : List Image :=
  [⟨"sha1", ["app1:v"]⟩, ⟨"sha2", ["app2:v"]⟩, ⟨"sha3", ["app3:v"]⟩,
   ⟨"sha4", ["app4:v"]⟩, ⟨"sha5", ["app5:v"]⟩, ⟨"sha6", ["app6:v"]⟩]

/-- C1 counterexample: with six matching images the Ambiguous payload holds
only five tags (`list(set(tags_list))[:5]`), omitting the tag of the sixth
matching candidate, so the payload does not enumerate the tags of all
matching candidates. -/
theorem ambiguous_payload_counterexample :
    findImage { get := fun _ => .notFound, listAll := .ok sixImages } "app"
      = .ambiguous ["app1:v", "app2:v", "app3:v", "app4:v", "app5:v"] ∧
    (⟨"sha6", ["app6:v"]⟩ : Image) ∈ sixImages ∧
    imageMatches "app" ⟨"sha6", ["app6:v"]⟩ = true ∧
    "app6:v" ∉ ["app1:v", "app2:v", "app3:v", "app4:v", "app5:v"] := by decide

/-- C1 (amended): with no exact match and two or more substring matches the
resolver returns Ambiguous, never a single candidate; for containers the
payload is the display names of all matching candidates in listing order;
for images it is the deduplicated tag list of the matching candidates
truncated to at most five entries (each payload entry is a matching
candidate's tag, but beyond five distinct tags some are omitted).  The
resolver is a function of the snapshot state, so repeating the call on the
same state yields the same payload in the same order. -/
theorem ambiguous_payload_amended :
    (∀ (g : String → GetResult Candidate) (cs : List Candidate) (q : String),
       g q = .notFound → 2 ≤ (cs.filter (containerMatches q)).length →
       findContainer { get := g, listAll := .ok cs } q =
         .ambiguous ((cs.filter (containerMatches q)).map Candidate.name))
  ∧ (∀ (g : String → GetResult Image) (imgs : List Image) (q : String),
       g q = .notFound → 2 ≤ (imgs.filter (imageMatches q)).length →
       findImage { get := g, listAll := .ok imgs } q =
         .ambiguous ((pyDedup ((imgs.filter (imageMatches q)).flatMap
           imageDisplayTags)).take 5) ∧
       ((pyDedup ((imgs.filter (imageMatches q)).flatMap imageDisplayTags)).take 5).length ≤ 5 ∧
       ∀ t ∈ (pyDedup ((imgs.filter (imageMatches q)).flatMap imageDisplayTags)).take 5,
         t ∈ (imgs.filter (imageMatches q)).flatMap imageDisplayTags) := by
  constructor
  · intro g cs q hg hlen
    cases hf : cs.filter (containerMatches q) with
    | nil => rw [hf] at hlen; simp at hlen
    | cons a rest =>
      cases rest with
      | nil => rw [hf] at hlen; simp at hlen
      | cons b t => simp [findContainer, hg, hf]
  · intro g imgs q hg hlen
    refine ⟨?_, List.length_take_le 5 _, ?_⟩
    · cases hf : imgs.filter (imageMatches q) with
      | nil => rw [hf] at hlen; simp at hlen
      | cons a rest =>
        cases rest with
        | nil => rw [hf] at hlen; simp at hlen
        | cons b t => simp [findImage, hg, hf]
    · intro t ht
      exact pyDedup_mem_of _ t (List.mem_of_mem_take ht)

/-- C1 witness: two containers matching "web" produce an Ambiguous result
listing both display names in listing order. -/
theorem ambiguous_payload_amended_witness :
    findContainer { get := fun _ => .notFound,
                    listAll := .ok [⟨"id1", "web-1"⟩, ⟨"id2", "web-2"⟩] } "web"
      = .ambiguous ["web-1", "web-2"] :=
  (ambiguous_payload_amended.1 (fun _ => .notFound)
    [⟨"id1", "web-1"⟩, ⟨"id2", "web-2"⟩] "web" rfl (by decide)).trans (by decide)

/-! ## Locator lemmas -/

theorem walk_up_nil_eq (s : Sys) :
    walk_up s [] = if has_compose_file s.fs [] then some [] else none := rfl

theorem walk_up_cons_eq (s : Sys) (a : String) (as : List String) :
    walk_up s (a :: as) =
      if has_compose_file s.fs (a :: as) then some (a :: as)
      else walk_up s ((a :: as).dropLast) := by
  unfold walk_up
  rw [List.length_dropLast]
  simp only [List.length_cons, Nat.add_sub_cancel]
  rfl

/-- Full characterization of the upward walk: a successful walk from `p`
returns the longest ancestor-or-self of `p` (an ancestor is `p.take j`)
containing a compose file, and the walk fails exactly when no ancestor of
`p` (the root `p.take 0 = []` included) contains one. -/
theorem walk_up_spec_aux (s : Sys) :
    ∀ (n : Nat) (p : DirPath), p.length = n →
      (∀ r, walk_up s p = some r →
        r = p.take r.length ∧ r.length ≤ p.length ∧
        has_compose_file s.fs r = true ∧
        ∀ j, r.length < j → j ≤ p.length → has_compose_file s.fs (p.take j) = false)
      ∧ (walk_up s p = none ↔
          ∀ j, j ≤ p.length → has_compose_file s.fs (p.take j) = false) := by
  intro n
  induction n using Nat.strong_induction_on with
  | _ n ih =>
    intro p hp
    cases p with
    | nil =>
      rw [walk_up_nil_eq]
      by_cases hm : has_compose_file s.fs [] = true
      · rw [if_pos hm]
        constructor
        · intro r hr
          cases hr
          refine ⟨by simp, by simp, hm, ?_⟩
          intro j h1 h2
          simp at h1 h2
          omega
        · apply iff_of_false (by simp)
          intro hall
          have h0 := hall 0 (by simp)
          simp only [List.take_nil] at h0
          simp [h0] at hm
      · rw [if_neg hm]
        have hmb : has_compose_file s.fs [] = false := by simpa using hm
        constructor
        · intro r hr
          exact absurd hr (by simp)
        · apply iff_of_true rfl
          intro j _
          simpa [List.take_nil] using hmb
    | cons a as =>
      subst hp
      have htake : ∀ j, j ≤ as.length → (a :: as).dropLast.take j = (a :: as).take j := by
        intro j hj
        rw [List.dropLast_eq_take, List.take_take]
        have hmin : min j ((a :: as).length - 1) = j := by
          simp only [List.length_cons]
          omega
        rw [hmin]
      rw [walk_up_cons_eq]
      by_cases hm : has_compose_file s.fs (a :: as) = true
      · rw [if_pos hm]
        constructor
        · intro r hr
          cases hr
          refine ⟨(List.take_length _).symm, le_refl _, hm, ?_⟩
          intro j h1 h2
          omega
        · apply iff_of_false (by simp)
          intro hall
          have hl := hall (a :: as).length (le_refl _)
          rw [List.take_length] at hl
          simp [hl] at hm
      · rw [if_neg hm]
        have hmb : has_compose_file s.fs (a :: as) = false := by simpa using hm
        have hdlen : (a :: as).dropLast.length = as.length := by
          rw [List.length_dropLast]
          simp
        have hih := ih as.length (by simp) ((a :: as).dropLast) hdlen
        constructor
        · intro r hr
          obtain ⟨h1, h2, h3, h4⟩ := hih.1 r hr
          rw [hdlen] at h2
          refine ⟨h1.trans (htake r.length h2), ?_, h3, ?_⟩
          · simp only [List.length_cons]
            omega
          · intro j hj1 hj2
            rcases Nat.lt_or_ge j (a :: as).length with hlt | hge
            · have hj3 : j ≤ as.length := by
                simp only [List.length_cons] at hlt
                omega
              rw [← htake j hj3]
              exact h4 j hj1 (by rw [hdlen]; exact hj3)
            · have hjeq : j = (a :: as).length := le_antisymm hj2 hge
              rw [hjeq, List.take_length]
              exact hmb
        · rw [hih.2]
          constructor
          · intro hall j hj
            rcases Nat.lt_or_ge j (a :: as).length with hlt | hge
            · have hj3 : j ≤ as.length := by
                simp only [List.length_cons] at hlt
                omega
              rw [← htake j hj3]
              exact hall j (by rw [hdlen]; exact hj3)
            · have hjeq : j = (a :: as).length := le_antisymm hj hge
              rw [hjeq, List.take_length]
              exact hmb
          · intro hall j hj
            rw [hdlen] at hj
            rw [htake j hj]
            exact hall j (by simp only [List.length_cons]; omega)

theorem tryEnvHints_of_accepted (s : Sys) :
    ∀ (l₁ : List String) (k : String) (l₂ : List String) (p : DirPath),
      (∀ k' ∈ l₁, acceptedHint s k' = none) → acceptedHint s k = some p →
      tryEnvHints s (l₁ ++ k :: l₂) = some p := by
  intro l₁
  induction l₁ with
  | nil =>
    intro k l₂ p _ hk
    simp [tryEnvHints, hk]
  | cons a t ih =>
    intro k l₂ p hnone hk
    have ha : acceptedHint s a = none := hnone a (by simp)
    simp only [List.cons_append, tryEnvHints, ha]
    exact ih k l₂ p (fun k' h => hnone k' (by simp [h])) hk

theorem tryEnvHints_of_none (s : Sys) :
    ∀ (ks : List String), (∀ k ∈ ks, acceptedHint s k = none) →
      tryEnvHints s ks = none := by
  intro ks
  induction ks with
  | nil => intro _; rfl
  | cons a t ih =>
    intro hnone
    have ha : acceptedHint s a = none := hnone a (by simp)
    simp only [tryEnvHints, ha]
    exact ih (fun k h => hnone k (by simp [h]))

/-! ## Locator claim theorems -/

/-- C10 (implicit): an empty-string explicit path is routed to
auto-detection exactly as a missing one (`if project_dir is not None and
project_dir:` is false for `""`), producing the same result as the
no-argument call. -/
theorem empty_explicit_path_auto_detects (s : Sys) :
    find_project_dir s (some "") = find_project_dir s none := by
  simp [find_project_dir]

/-- C8: a non-empty explicit path is absolutized and then authoritative:
not a directory fails with InvalidPath, a directory without any recognized
marker file fails with NoMarkerFile, otherwise the absolutized path is
returned; environment hints and the upward walk never influence the result
(two states agreeing on the filesystem and on path absolutization give the
same result whatever their environment and working directory). -/
theorem explicit_path_authoritative (s : Sys) (p : String) (hp : p ≠ "") :
    (s.fs.isDir (s.abspath p) = false →
       find_project_dir s (some p) = .error .invalidPath)
  ∧ (s.fs.isDir (s.abspath p) = true → has_compose_file s.fs (s.abspath p) = false →
       find_project_dir s (some p) = .error .noMarkerFile)
  ∧ (s.fs.isDir (s.abspath p) = true → has_compose_file s.fs (s.abspath p) = true →
       find_project_dir s (some p) = .ok (s.abspath p))
  ∧ (∀ s' : Sys, s'.fs = s.fs → s'.abspath = s.abspath →
       find_project_dir s' (some p) = find_project_dir s (some p)) := by
  have hb : (p != "") = true := bne_iff_ne.mpr hp
  refine ⟨?_, ?_, ?_, ?_⟩
  · intro h
    simp [find_project_dir, hb, h]
  · intro h1 h2
    simp [find_project_dir, hb, h1, h2]
  · intro h1 h2
    simp [find_project_dir, hb, h1, h2]
  · intro s' h1 h2
    simp only [find_project_dir, hb, if_true]
    rw [h1, h2]

/-- C9: with no explicit path the hints MCP_PROJECT_DIR, WORKSPACE_ROOT,
CURSOR_WORKSPACE_ROOT are consulted in that fixed order; the first accepted
hint (set, non-empty, a directory, containing a marker) is returned
absolutized and later hints are never consulted; if every hint is skipped,
resolution is exactly the upward walk's outcome, no hint producing an
error. -/
theorem env_hints_first_match (s : Sys) :
    (∀ (l₁ : List String) (k : String) (l₂ : List String) (p : DirPath),
       env_keys = l₁ ++ k :: l₂ →
       (∀ k' ∈ l₁, acceptedHint s k' = none) →
       acceptedHint s k = some p →
       find_project_dir s none = .ok p)
  ∧ ((∀ k ∈ env_keys, acceptedHint s k = none) →
       find_project_dir s none =
         match walk_up s s.cwd with
         | some r => .ok r
         | none => .error .noProjectFound) := by
  constructor
  · intro l₁ k l₂ p hsplit hnone hk
    have : tryEnvHints s env_keys = some p := by
      rw [hsplit]
      exact tryEnvHints_of_accepted s l₁ k l₂ p hnone hk
    simp [find_project_dir, autoDetect, this]
  · intro hall
    have : tryEnvHints s env_keys = none := tryEnvHints_of_none s env_keys hall
    simp [find_project_dir, autoDetect, this]

/-- State for the C9 witness: MCP_PROJECT_DIR unset, WORKSPACE_ROOT set to a
valid project directory. -/
def sys9 : Sys :=
  { fs := { isDir := fun _ => true,
            isFile := fun p => p == ["ws", "docker-compose.yml"] },
    env := [("WORKSPACE_ROOT", "ws")],
    cwd := ["home"],
    abspath := fun _ => ["ws"] }

/-- C9 witness: with MCP_PROJECT_DIR skipped (unset) and WORKSPACE_ROOT
accepted, the locator returns WORKSPACE_ROOT's directory. -/
theorem env_hints_first_match_witness :
    find_project_dir sys9 none = .ok ["ws"] :=
  (env_hints_first_match sys9).1 ["MCP_PROJECT_DIR"] "WORKSPACE_ROOT"
    ["CURSOR_WORKSPACE_ROOT"] ["ws"] rfl (by decide) (by decide)

/-- C4: with no explicit path and every environment hint skipped, resolution
walks upward from the working directory: a success returns an
ancestor-or-self of `cwd` (every ancestor is `cwd.take j`) that contains a
marker file, with no marker in any strictly nearer ancestor; NoProjectFound
is returned exactly when no ancestor up to the root contains a marker. -/
theorem upward_walk_nearest (s : Sys) (henv : tryEnvHints s env_keys = none) :
    (∀ r, find_project_dir s none = .ok r →
       r = s.cwd.take r.length ∧ r.length ≤ s.cwd.length ∧
       has_compose_file s.fs r = true ∧
       ∀ j, r.length < j → j ≤ s.cwd.length → has_compose_file s.fs (s.cwd.take j) = false)
  ∧ (find_project_dir s none = .error .noProjectFound ↔
       ∀ j, j ≤ s.cwd.length → has_compose_file s.fs (s.cwd.take j) = false) := by
  have hspec := walk_up_spec_aux s s.cwd.length s.cwd rfl
  have hfp : find_project_dir s none =
      match walk_up s s.cwd with
      | some r => Except.ok r
      | none => Except.error LocateError.noProjectFound := by
    simp [find_project_dir, autoDetect, henv]
  constructor
  · intro r hr
    rw [hfp] at hr
    cases hw : walk_up s s.cwd with
    | none => rw [hw] at hr; simp at hr
    | some r' =>
      rw [hw] at hr
      have hrr : r' = r := by simpa using hr
      subst hrr
      exact hspec.1 r' hw
  · rw [hfp]
    cases hw : walk_up s s.cwd with
    | some r' =>
      apply iff_of_false (by simp)
      intro hall
      have hn := hspec.2.mpr hall
      rw [hw] at hn
      exact absurd hn (by simp)
    | none =>
      apply iff_of_true rfl (hspec.2.mp hw)

/-- State for the C4 witness: working directory `/a/b/c`, markers in both
`/a/b` and `/a`, empty environment. -/
def sys4 : Sys :=
  { fs := { isDir := fun _ => true,
            isFile := fun p =>
              p == ["a", "b", "docker-compose.yml"] || p == ["a", "docker-compose.yml"] },
    env := [],
    cwd := ["a", "b", "c"],
    abspath := fun _ => [] }

/-- C4 witness: from `/a/b/c` with markers in both `/a/b` and `/a`, the walk
returns the nearer `/a/b`, not `/a`. -/
theorem upward_walk_nearest_witness :
    find_project_dir sys4 none = .ok ["a", "b"] ∧
    has_compose_file sys4.fs ["a", "b"] = true ∧
    has_compose_file sys4.fs ["a"] = true :=
  ⟨by rfl,
   ((upward_walk_nearest sys4 (by decide)).1 ["a", "b"] (by rfl)).2.2.1,
   by decide⟩

/-- State for the C8 witness: the explicit path resolves to directory
`/proj` with no marker, while the working directory `/home` does contain a
marker the fallback walk would find. -/
def sys8 : Sys :=
  { fs := { isDir := fun _ => true,
            isFile := fun p => p == ["home", "docker-compose.yml"] },
    env := [],
    cwd := ["home"],
    abspath := fun _ => ["proj"] }

/-- C8 witness: an explicit directory without a marker fails with
NoMarkerFile even though the upward walk from cwd would have found a
project. -/
theorem explicit_path_authoritative_witness :
    find_project_dir sys8 (some "proj") = .error .noMarkerFile ∧
    find_project_dir sys8 none = .ok ["home"] :=
  ⟨(explicit_path_authoritative sys8 "proj" (by decide)).2.1 rfl (by decide),
   by rfl⟩
